import Mathlib

/-!
Verification of the `p-retry` retry orchestrator (`src/index.js`) against its
natural-language specification.

The JavaScript source is shallowly embedded: thrown values, error classes and
JS numbers become inductive types; the asynchronous control flow of `pRetry`
becomes a fuel-indexed recursive function that also records an event trace
(operation invocations, `onFailedAttempt` calls, `shouldRetry` calls, awaited
delays), so that counting and ordering claims can be stated about the trace.
JS numbers used by the delay/deadline arithmetic are modelled as `ℚ` with
`WithTop ℚ` where `Infinity` can occur; `Math.round` is Mathlib's `round`
(both are `⌊x + 1/2⌋`).
-/

namespace PRetry

/-- A JavaScript error object, restricted to the classes the source branches
on: `AbortError` (which carries `originalError`), `TypeError`, and any other
`Error`. Mirrors the `instanceof` tests in `onAttemptFailure`. -/
inductive JsError where
  | plain (message : String)
  | typeError (message : String)
  | abortError (message : String) (originalError : JsError)
deriving DecidableEq

/-- The `message` property of an error. -/
def JsError.message : JsError → String
  | .plain m => m
  | .typeError m => m
  | .abortError m _ => m

/-- A thrown JavaScript value: either a proper `Error` instance or a
non-error value, represented by its stringification (what `${value}`
produces in a template literal). -/
inductive JsValue where
  | err (e : JsError)
  | nonError (stringified : String)
deriving DecidableEq

/-- Events recorded while a retry run executes, used to state counting and
ordering properties: `attempt n` marks an invocation of the user operation,
`onFailedAttemptCall n` an invocation of `options.onFailedAttempt`,
`shouldRetryCall n` an invocation of `options.shouldRetry`, and
`delayWait n d` an awaited positive inter-attempt delay. -/
inductive Event where
  | attempt (n : ℕ)
  | onFailedAttemptCall (n : ℕ)
  | shouldRetryCall (n : ℕ)
  | delayWait (n : ℕ) (d : WithTop ℚ)
deriving DecidableEq

/-- The frozen context object built by `createRetryContext`. -/
structure RetryContext where
  error : JsError
  attemptNumber : ℕ
  retriesLeft : WithTop ℚ

/-- The normalized options record as used by the retry loop after
`pRetry`'s defaulting and validation (lines 137-172 of `src/index.js`).
Callbacks are modelled as functions that may also throw (`Except`). The
`signal` field models an `AbortSignal` that is statically either
not aborted (`none`) or aborted with a reason (`some r`). -/
structure Options where
  retries : WithTop ℚ
  factor : ℚ
  minTimeout : ℚ
  maxTimeout : WithTop ℚ
  randomize : Bool
  maxRetryTime : WithTop ℚ
  onFailedAttempt : RetryContext → Except JsValue Unit
  shouldRetry : RetryContext → Except JsValue Bool
  signal : Option JsValue
  unref : Bool

/-- Ambient capabilities of one run: `startTime` is the `Date.now()` captured
before the loop, `now k` the `Date.now()` observed while handling the failure
of attempt `k`, and `rand k` the `Math.random()` sample drawn for the delay
after attempt `k`. -/
structure RunEnv where
  startTime : ℚ
  now : ℕ → ℚ
  rand : ℕ → ℚ

/-- Modelled from the spec: the recognized network-failure messages of the
injected `is-network-error` collaborator ("Failed to fetch",
"NetworkError when attempting to fetch resource.",
"The Internet connection appears to be offline.", "Network request failed",
"fetch failed"); the package itself is an external dependency whose code is
not part of this repository. -/
def networkErrorMessages : List String :=
  ["Failed to fetch",
   "NetworkError when attempting to fetch resource.",
   "The Internet connection appears to be offline.",
   "Network request failed",
   "fetch failed"]

/-- Modelled from the spec: the injected network-error predicate — true
exactly for a `TypeError` whose message is a recognized network-failure
message. -/
def isNetworkError (e : JsError) : Bool :=
  match e with
  | .typeError m => networkErrorMessages.contains m
  | _ => false

/-- `e instanceof TypeError`. -/
def isTypeErrorB (e : JsError) : Bool :=
  match e with
  | .typeError _ => true
  | _ => false

/-- The message given to the `TypeError` wrapping a thrown non-error value
(`src/index.js` line 76). -/
def nonErrorWrapMessage (s : String) : String :=
  "Non-error was thrown: \"" ++ s ++ "\". You should only throw errors."

/-- Lines 73-77: a thrown value that is not an `Error` instance is replaced
by a `TypeError` carrying its stringification. -/
def wrapIfNonError : JsValue → JsError
  | .err e => e
  | .nonError s => .typeError (nonErrorWrapMessage s)

/-- The `AbortError` constructor (lines 35-50): given an `Error`, it becomes
`originalError` and its message is copied; given a string, a fresh `Error`
with that message becomes `originalError`. -/
def mkAbortError : JsError ⊕ String → JsError
  | .inl e => .abortError e.message e
  | .inr m => .abortError m (.plain m)

/-- `createRetryContext` (lines 52-61): `retriesLeft` is
`options.retries - (attemptNumber - 1)` (`Infinity` stays `Infinity`). -/
def createRetryContext (error : JsError) (attemptNumber : ℕ) (o : Options) :
    RetryContext :=
  { error := error
    attemptNumber := attemptNumber
    retriesLeft := o.retries.map (fun r => r - ((attemptNumber : ℚ) - 1)) }

/-- `calculateDelay` (lines 63-70): with `randomize` the `Math.random()`
sample plus one multiplies the base; the base is
`Math.max(minTimeout, 1) * factor ** (attempt - 1)`; the product is rounded
(`Math.round` is `⌊x + 1/2⌋`, as is Mathlib's `round`) and capped at
`maxTimeout`. -/
def calculateDelay (randSample : ℚ) (attempt : ℕ) (o : Options) : WithTop ℚ :=
  let random : ℚ := if o.randomize then randSample + 1 else 1
  let timeout : ℤ := round (random * max o.minTimeout 1 * o.factor ^ (attempt - 1))
  min (((timeout : ℚ) : WithTop ℚ)) o.maxTimeout

/-- `signal?.throwIfAborted()`: throws the abort reason when the signal is
aborted. -/
def throwIfAbortedV (signal : Option JsValue) : Except JsValue Unit :=
  match signal with
  | some r => .error r
  | none => .ok ()

/-- `onAttemptFailure` (lines 72-135), returning the control outcome
(`.ok` = retry, `.error v` = reject the run with `v`) together with the
events it performed. -/
def onAttemptFailure (thrown : JsValue) (attemptNumber : ℕ) (o : Options)
    (env : RunEnv) : Except JsValue Unit × List Event :=
  let normalizedError := wrapIfNonError thrown
  match normalizedError with
  | .abortError _ orig => (.error (.err orig), [])
  | _ =>
    if isTypeErrorB normalizedError && !isNetworkError normalizedError then
      (.error (.err normalizedError), [])
    else
      let context := createRetryContext normalizedError attemptNumber o
      match o.onFailedAttempt context with
      | .error e => (.error e, [.onFailedAttemptCall attemptNumber])
      | .ok _ =>
        let currentTime := env.now attemptNumber
        if (((currentTime - env.startTime : ℚ) : WithTop ℚ) ≥ o.maxRetryTime)
            ∨ (((attemptNumber : ℚ) : WithTop ℚ) ≥ o.retries + 1) then
          (.error (.err normalizedError), [.onFailedAttemptCall attemptNumber])
        else
          match o.shouldRetry context with
          | .error e =>
              (.error e,
               [.onFailedAttemptCall attemptNumber, .shouldRetryCall attemptNumber])
          | .ok b =>
            if b then
              let delayTime := calculateDelay (env.rand attemptNumber) attemptNumber o
              let timeLeft :=
                o.maxRetryTime.map (fun m => m - (currentTime - env.startTime))
              if timeLeft ≤ (0 : WithTop ℚ) then
                (.error (.err normalizedError),
                 [.onFailedAttemptCall attemptNumber, .shouldRetryCall attemptNumber])
              else
                let finalDelay := min delayTime timeLeft
                let evs :=
                  [Event.onFailedAttemptCall attemptNumber,
                   Event.shouldRetryCall attemptNumber] ++
                  (if (0 : WithTop ℚ) < finalDelay then
                    [Event.delayWait attemptNumber finalDelay] else [])
                match throwIfAbortedV o.signal with
                | .error r => (.error r, evs)
                | .ok _ => (.ok (), evs)
            else
              (.error (.err normalizedError),
               [.onFailedAttemptCall attemptNumber, .shouldRetryCall attemptNumber])

/-- A JavaScript number as supplied in a raw options object: a finite number,
`±Infinity`, `NaN`, or a value whose `typeof` is not `'number'`. -/
inductive JsNum where
  | num (q : ℚ)
  | posInf
  | negInf
  | nan
  | notNumber
deriving DecidableEq

/-- `typeof value === 'number'`. -/
def JsNum.isNumber : JsNum → Bool
  | .notNumber => false
  | _ => true

/-- `Number.isFinite(value)`. -/
def JsNum.isFinite : JsNum → Bool
  | .num _ => true
  | _ => false

/-- The JS comparison `value < bound` (false for `NaN`). -/
def JsNum.jsLt (v : JsNum) (bound : ℚ) : Bool :=
  match v with
  | .num q => q < bound
  | .negInf => true
  | _ => false

/-- The JS comparison `value > 0` (false for `NaN`), used by the factor
coercion at line 162. -/
def jsGtZero : Option JsNum → Bool
  | some (.num q) => 0 < q
  | some .posInf => true
  | _ => false

/-- Interpret a validated, possibly infinite option value in `WithTop ℚ`.
Shapes other than a finite number map to `⊤`; validation rejects every such
shape except `Infinity` before this conversion runs. -/
def JsNum.toWithTop : JsNum → WithTop ℚ
  | .num q => (q : WithTop ℚ)
  | _ => ⊤

/-- Interpret a validated finite option value in `ℚ`. Non-finite shapes are
rejected by validation before this conversion runs. -/
def JsNum.toQ : JsNum → ℚ
  | .num q => q
  | _ => 0

/-- The raw options object a caller passes to `pRetry`: absent fields are
`none` (`undefined`), and `hasForever` models `Object.hasOwn(options,
'forever')`. -/
structure RawOptions where
  retries : Option JsNum := none
  factor : Option JsNum := none
  minTimeout : Option JsNum := none
  maxTimeout : Option JsNum := none
  maxRetryTime : Option JsNum := none
  randomize : Option Bool := none
  onFailedAttempt : Option (RetryContext → Except JsValue Unit) := none
  shouldRetry : Option (RetryContext → Except JsValue Bool) := none
  hasForever : Bool := false
  signal : Option JsValue := none
  unref : Option Bool := none

/-- `validateRetries` (lines 3-15). -/
def validateRetries (retries : Option JsNum) : Except JsError Unit :=
  match retries with
  | none => .ok ()
  | some v =>
    if v.isNumber then
      if v.jsLt 0 then
        .error (.typeError "Expected `retries` to be a non-negative number.")
      else if v = .nan then
        .error (.typeError "Expected `retries` to be a valid number or Infinity, got NaN.")
      else .ok ()
    else .error (.typeError "Expected `retries` to be a number or Infinity.")

/-- `validateNumberOption` (lines 17-33). -/
def validateNumberOption (name : String) (value : Option JsNum) (minV : ℚ)
    (allowInfinity : Bool) : Except JsError Unit :=
  match value with
  | none => .ok ()
  | some v =>
    if !v.isNumber || v = .nan then
      .error (.typeError ("Expected `" ++ name ++ "` to be a number"
        ++ (if allowInfinity then " or Infinity" else "") ++ "."))
    else if !allowInfinity && !v.isFinite then
      .error (.typeError ("Expected `" ++ name ++ "` to be a finite number."))
    else if v.jsLt minV then
      .error (.typeError ("Expected `" ++ name ++ "` to be ≥ " ++ toString minV ++ "."))
    else .ok ()

/-- The message of the error thrown when a `forever` property is present
(line 143). -/
def foreverMessage : String :=
  "The `forever` option is no longer supported. For many use-cases, you can set `retries: Infinity` instead."

/-- The two options objects alive during `pRetry`'s prologue: the caller's
object and the function's local object created by the shallow copy
`options = {...options}` at line 138. Every later assignment in the source
targets the local object, which the embedding makes explicit by only ever
updating `localObj`. -/
structure OptionsHeap where
  callerObj : RawOptions
  localObj : RawOptions

/-- The `??=` defaulting block, lines 146-152, writing to the local object. -/
def setDefaults (h : OptionsHeap) : OptionsHeap :=
  { h with localObj :=
    { h.localObj with
      retries := some (h.localObj.retries.getD (.num 10))
      factor := some (h.localObj.factor.getD (.num 2))
      minTimeout := some (h.localObj.minTimeout.getD (.num 1000))
      maxTimeout := some (h.localObj.maxTimeout.getD .posInf)
      randomize := some (h.localObj.randomize.getD false)
      onFailedAttempt := some (h.localObj.onFailedAttempt.getD (fun _ => .ok ()))
      shouldRetry := some (h.localObj.shouldRetry.getD (fun _ => .ok true)) } }

/-- The factor coercion, lines 161-164: `if (!(options.factor > 0))
{ options.factor = 1; }`, writing to the local object. -/
def coerceFactor (h : OptionsHeap) : OptionsHeap :=
  if jsGtZero h.localObj.factor then h
  else { h with localObj := { h.localObj with factor := some (.num 1) } }

/-- Build the normalized `Options` record from the defaulted, validated,
coerced local object (the fields the loop reads, lines 166-186). -/
def buildOptions (l : RawOptions) (resolvedMaxRetryTime : JsNum) : Options :=
  { retries := (l.retries.getD (.num 10)).toWithTop
    factor := (l.factor.getD (.num 2)).toQ
    minTimeout := (l.minTimeout.getD (.num 1000)).toQ
    maxTimeout := (l.maxTimeout.getD .posInf).toWithTop
    randomize := l.randomize.getD false
    maxRetryTime := resolvedMaxRetryTime.toWithTop
    onFailedAttempt := l.onFailedAttempt.getD (fun _ => .ok ())
    shouldRetry := l.shouldRetry.getD (fun _ => .ok true)
    signal := l.signal
    unref := l.unref.getD false }

/-- The prologue of `pRetry` (lines 137-172): shallow-copy the caller's
options, validate `retries`, reject `forever`, fill defaults, validate the
numeric options, resolve `maxRetryTime`, and coerce a non-positive factor
to 1. Returns the final heap (to state that the caller's object was never
written) together with the validation outcome. -/
def normalizeOptions (caller : RawOptions) : OptionsHeap × Except JsError Options :=
  let h : OptionsHeap := { callerObj := caller, localObj := caller }
  match validateRetries h.localObj.retries with
  | .error e => (h, .error e)
  | .ok _ =>
    if h.localObj.hasForever then (h, .error (.plain foreverMessage))
    else
      let h := setDefaults h
      match validateNumberOption "factor" h.localObj.factor 0 false with
      | .error e => (h, .error e)
      | .ok _ =>
        match validateNumberOption "minTimeout" h.localObj.minTimeout 0 false with
        | .error e => (h, .error e)
        | .ok _ =>
          match validateNumberOption "maxTimeout" h.localObj.maxTimeout 0 true with
          | .error e => (h, .error e)
          | .ok _ =>
            let resolvedMaxRetryTime := h.localObj.maxRetryTime.getD .posInf
            match validateNumberOption "maxRetryTime" (some resolvedMaxRetryTime) 0 true with
            | .error e => (h, .error e)
            | .ok _ =>
              let h := coerceFactor h
              (h, .ok (buildOptions h.localObj resolvedMaxRetryTime))

/-- The outcome of a run: resolution with a value, rejection with a thrown
value, the dead fallback `throw` after the loop (line 191), or exhaustion of
the step fuel of the embedding. -/
inductive RunOutcome (α : Type) where
  | ok (value : α)
  | thrown (v : JsValue)
  | exhaustedFallback
  | outOfFuel
deriving DecidableEq

/-- The body of the `try` block (lines 177-184): abort check, operation
invocation, post-success abort check. The `.attempt` event marks that the
operation was actually invoked. -/
def attemptBody {α : Type} (input : ℕ → Except JsValue α)
    (signal : Option JsValue) (a : ℕ) : Except JsValue α × List Event :=
  match throwIfAbortedV signal with
  | .error r => (.error r, [])
  | .ok _ =>
    match input a with
    | .error e => (.error e, [.attempt a])
    | .ok v =>
      match throwIfAbortedV signal with
      | .error r => (.error r, [.attempt a])
      | .ok _ => (.ok v, [.attempt a])

/-- The `while` loop of `pRetry` (lines 174-191), indexed by fuel so that the
embedding is total; `attemptNumber` is the loop counter before the increment
at line 175. Any failure raised inside the `try` block is passed to
`onAttemptFailure`, exactly as the `catch` at line 185 does. -/
def pRetryLoop {α : Type} (input : ℕ → Except JsValue α) (o : Options)
    (env : RunEnv) : ℕ → ℕ → RunOutcome α × List Event
  | 0, _ => (.outOfFuel, [])
  | fuel + 1, attemptNumber =>
    if (((attemptNumber : ℚ) : WithTop ℚ) < o.retries + 1) then
      let a := attemptNumber + 1
      match attemptBody input o.signal a with
      | (.ok v, evs) => (.ok v, evs)
      | (.error e, evs) =>
        match onAttemptFailure e a o env with
        | (.error v, evs2) => (.thrown v, evs ++ evs2)
        | (.ok _, evs2) =>
          let rest := pRetryLoop input o env fuel a
          (rest.1, evs ++ evs2 ++ rest.2)
    else (.exhaustedFallback, [])

/-- `pRetry` after a successful prologue: the pre-loop
`signal?.throwIfAborted()` at line 166 followed by the attempt loop. -/
def runRetry {α : Type} (input : ℕ → Except JsValue α) (o : Options)
    (env : RunEnv) (fuel : ℕ) : RunOutcome α × List Event :=
  match throwIfAbortedV o.signal with
  | .error r => (.thrown r, [])
  | .ok _ => pRetryLoop input o env fuel 0

/-- The exported `pRetry` function (lines 137-192): normalize the caller's
options (validation errors reject the run synchronously) and run the loop. -/
def pRetry {α : Type} (input : ℕ → Except JsValue α) (caller : RawOptions)
    (env : RunEnv) (fuel : ℕ) : RunOutcome α × List Event :=
  match (normalizeOptions caller).2 with
  | .error e => (.thrown (.err e), [])
  | .ok o => runRetry input o env fuel

/-- The delay formula exactly as the claim states it: `minTimeout *
factor^(attempt - 1)`, rounded to the nearest integer millisecond, then
capped at `maxTimeout` — with no lower floor on `minTimeout`. -/
def claimedDelayFormula (minT fac : ℚ) (maxT : WithTop ℚ) (attempt : ℕ) :
    WithTop ℚ :=
  min (((round (minT * fac ^ (attempt - 1)) : ℚ)) : WithTop ℚ) maxT

/-- The delay formula as the code computes it when `randomize` is false:
the base is floored at 1 millisecond (`Math.max(minTimeout, 1)`), then
grows by `factor^(attempt - 1)`, is rounded, and is capped at
`maxTimeout`. -/
def flooredDelayFormula (minT fac : ℚ) (maxT : WithTop ℚ) (attempt : ℕ) :
    WithTop ℚ :=
  min (((round (max minT 1 * fac ^ (attempt - 1)) : ℚ)) : WithTop ℚ) maxT

/-- A normalized policy with `minTimeout = 0`, `factor = 2`,
`maxTimeout = ∞`, `randomize = false`: the claim predicts a zero delay at
every attempt, the code does not. -/
def zeroMinTimeoutOptions : Options :=
  { retries := ((10 : ℚ) : WithTop ℚ)
    factor := 2
    minTimeout := 0
    maxTimeout := ⊤
    randomize := false
    maxRetryTime := ⊤
    onFailedAttempt := fun _ => .ok ()
    shouldRetry := fun _ => .ok true
    signal := none
    unref := false }

/-- A trivial environment: the clock always reads 0 and the random source
always returns 0. -/
def trivialEnv : RunEnv := { startTime := 0, now := fun _ => 0, rand := fun _ => 0 }

/-- An operation that always throws an `AbortError` built (as the class
constructor does) from an underlying `Error` cause. -/
def inputAbort : ℕ → Except JsValue ℕ :=
  fun _ => .error (.err (mkAbortError (.inl (.plain "cause"))))

/-- An operation that always throws the non-error value `'foo'`. -/
def inputNonError : ℕ → Except JsValue ℕ :=
  fun _ => .error (.nonError "foo")

/-- An operation that always throws a `TypeError` with a non-network
message. -/
def inputTypeError : ℕ → Except JsValue ℕ :=
  fun _ => .error (.err (.typeError "boom"))

/-- Recognizes operation-invocation events. -/
def isAttemptEv : Event → Bool
  | .attempt _ => true
  | _ => false

/-- Recognizes `onFailedAttempt`-invocation events. -/
def isOnFAEv : Event → Bool
  | .onFailedAttemptCall _ => true
  | _ => false

/-- A normalized policy with `retries = 1` and no deadline, cancellation or
overriding callbacks. -/
def retriesOneOptions : Options :=
  { retries := ((1 : ℚ) : WithTop ℚ)
    factor := 2
    minTimeout := 0
    maxTimeout := ⊤
    randomize := false
    maxRetryTime := ⊤
    onFailedAttempt := fun _ => .ok ()
    shouldRetry := fun _ => .ok true
    signal := none
    unref := false }

/-- An operation that fails on every attempt with a plain retryable error. -/
def inputAlwaysFail : ℕ → Except JsValue ℕ :=
  fun _ => .error (.err (.plain "always"))

/-- Scan an event trace keeping the attempt numbers whose `onFailedAttempt`
call has already been seen; fail (`none`) on a `shouldRetry` event whose
attempt number has no earlier `onFailedAttempt` event. -/
def seenScan : List ℕ → List Event → Option (List ℕ)
  | seen, [] => some seen
  | seen, (Event.onFailedAttemptCall n) :: rest => seenScan (n :: seen) rest
  | seen, (Event.shouldRetryCall n) :: rest =>
    if n ∈ seen then seenScan seen rest else none
  | seen, (Event.attempt _) :: rest => seenScan seen rest
  | seen, (Event.delayWait _ _) :: rest => seenScan seen rest

/-- A trace satisfies the callback-ordering discipline: every `shouldRetry`
consultation for attempt `n` is preceded somewhere earlier in the trace by a
completed `onFailedAttempt` call for the same attempt `n`. -/
def onFailedBeforeShouldRetry (l : List Event) : Bool :=
  (seenScan [] l).isSome

/-- Modelled from the spec: the run state of the `shouldSkip`-aware attempt
loop — the 1-based attempt number (incremented before each call), the count
of consumed retry-budget slots (incremented only by non-skipped failures),
and the count of skipped failures. The `shouldSkip` feature is described by
the spec and referenced by the repository's type declarations and tests, but
its implementation is not among the sources. -/
structure SkipRunState where
  attemptNumber : ℕ
  retriesConsumed : ℕ
  skippedRetries : ℕ

/-- Modelled from the spec: retries-left under the skip-aware loop — the
retry budget minus the consumed slots (`Infinity` stays `Infinity`). -/
def specSkipRetriesLeft (retries : WithTop ℚ) (s : SkipRunState) : WithTop ℚ :=
  retries.map (fun r => r - (s.retriesConsumed : ℚ))

/-- Modelled from the spec: the backoff attempt-index used for delay growth,
"adjusted to exclude skipped attempts" and "at least 1". -/
def specSkipEffectiveAttempt (s : SkipRunState) : ℕ :=
  max (s.attemptNumber - s.skippedRetries) 1

/-- Modelled from the spec: handling one failure in the skip-aware loop.
`shouldSkip` is evaluated on the failure; `onFailedAttempt` is invoked
unconditionally; the attempt number advances; a retry-budget slot is
consumed only when the failure is not skipped, and the skipped counter
advances only when it is. -/
def specSkipFailStep (shouldSkip : JsError → Bool) (s : SkipRunState)
    (e : JsError) : SkipRunState × List Event :=
  let skip := shouldSkip e
  ({ attemptNumber := s.attemptNumber + 1
     retriesConsumed := s.retriesConsumed + (if skip then 0 else 1)
     skippedRetries := s.skippedRetries + (if skip then 1 else 0) },
   [Event.onFailedAttemptCall s.attemptNumber])

/-- The `shouldSkip` predicate used by the repository's test
(`error.message === 'skip'`). -/
def skipOnSkipMessage : JsError → Bool :=
  fun e => e.message == "skip"

/-- A raw options object supplying a negative `factor`. -/
def rawNegFactor : RawOptions := { factor := some (.num (-1)) }

/-- A raw options object supplying `factor = 0`. -/
def rawZeroFactor : RawOptions := { factor := some (.num 0) }

end PRetry

namespace PRetry

/-- C4 (counterexample): with `randomize = false`, `minTimeout = 0`,
`factor = 2`, `maxTimeout = ∞`, the code computes a delay of 1 ms at
attempt 1 — because `calculateDelay` floors the base at
`Math.max(minTimeout, 1)` — while the claimed formula
`round(minTimeout * factor^(a-1))` capped at `maxTimeout` gives 0. -/
theorem calculateDelay_zero_minTimeout_cex :
    calculateDelay 0 1 zeroMinTimeoutOptions = ((1 : ℚ) : WithTop ℚ) ∧
      claimedDelayFormula zeroMinTimeoutOptions.minTimeout
        zeroMinTimeoutOptions.factor zeroMinTimeoutOptions.maxTimeout 1
        = ((0 : ℚ) : WithTop ℚ) := by
  constructor
  · show min _ _ = _
    norm_num [zeroMinTimeoutOptions, max_eq_right]
  · show min _ _ = _
    norm_num [claimedDelayFormula, zeroMinTimeoutOptions]

/-- C4 (amended): for every normalized policy with `randomize = false` and
every attempt index `a ≥ 1`, the computed delay equals
`Math.max(minTimeout, 1) * factor^(a - 1)` rounded to the nearest integer
millisecond and then capped at `maxTimeout`; in particular `minTimeout = 0`
behaves exactly like `minTimeout = 1`, not like a zero delay. -/
theorem calculateDelay_eq_flooredFormula (o : Options) (r : ℚ) (a : ℕ)
    (hrand : o.randomize = false) (ha : 1 ≤ a) :
    calculateDelay r a o =
      flooredDelayFormula o.minTimeout o.factor o.maxTimeout a := by
  simp [calculateDelay, flooredDelayFormula, hrand]

/-- C4 (witness for the amended theorem): concrete instance at attempt 2. -/
theorem calculateDelay_eq_flooredFormula_witness :
    calculateDelay 7 2 zeroMinTimeoutOptions =
      flooredDelayFormula zeroMinTimeoutOptions.minTimeout
        zeroMinTimeoutOptions.factor zeroMinTimeoutOptions.maxTimeout 2 :=
  calculateDelay_eq_flooredFormula zeroMinTimeoutOptions 7 2 rfl (by norm_num)

/-- C5 (counterexample): a supplied `factor = -1` is rejected by option
normalization with the validation error `Expected `factor` to be ≥ 0.`,
contradicting the claim that every non-positive factor is coerced to 1
instead of rejected. -/
theorem normalizeOptions_negative_factor_cex :
    (normalizeOptions rawNegFactor).2 =
      .error (.typeError "Expected `factor` to be ≥ 0.") := by
  have h1 : JsNum.jsLt (.num (-1)) 0 = true := by
    norm_num [JsNum.jsLt]
  have h0 : toString (0 : ℚ) = "0" := rfl
  simp [normalizeOptions, rawNegFactor, validateRetries, setDefaults,
    validateNumberOption, JsNum.isNumber, JsNum.isFinite, h1, h0]

/-- C5 (amended): a supplied `factor = 0` passes option normalization and is
coerced to 1, but a supplied negative factor is rejected with the validation
error `Expected `factor` to be ≥ 0.` — only zero (not all of `factor ≤ 0`)
avoids rejection. -/
theorem normalizeOptions_factor_coercion (raw : RawOptions) (q : ℚ)
    (hforever : raw.hasForever = false)
    (hret : validateRetries raw.retries = .ok ())
    (hf : raw.factor = some (.num q))
    (hmt : validateNumberOption "minTimeout"
        (some (raw.minTimeout.getD (.num 1000))) 0 false = .ok ())
    (hxt : validateNumberOption "maxTimeout"
        (some (raw.maxTimeout.getD .posInf)) 0 true = .ok ())
    (hrt : validateNumberOption "maxRetryTime"
        (some (raw.maxRetryTime.getD .posInf)) 0 true = .ok ()) :
    (q < 0 → (normalizeOptions raw).2 =
        .error (.typeError "Expected `factor` to be ≥ 0.")) ∧
    (q = 0 → ∃ o, (normalizeOptions raw).2 = .ok o ∧ o.factor = 1) := by
  have hsd : (setDefaults { callerObj := raw, localObj := raw
      }).localObj.factor = some (.num q) := by
    simp [setDefaults, hf]
  have hsdm : (setDefaults { callerObj := raw, localObj := raw
      }).localObj.minTimeout = some (raw.minTimeout.getD (.num 1000)) := by
    simp [setDefaults]
  have hsdx : (setDefaults { callerObj := raw, localObj := raw
      }).localObj.maxTimeout = some (raw.maxTimeout.getD .posInf) := by
    simp [setDefaults]
  have hsdr : (setDefaults { callerObj := raw, localObj := raw
      }).localObj.maxRetryTime = raw.maxRetryTime := by
    simp [setDefaults]
  constructor
  · intro hq
    have h1 : JsNum.jsLt (.num q) 0 = true := by
      simp [JsNum.jsLt]; exact hq
    have h0 : toString (0 : ℚ) = "0" := rfl
    simp [normalizeOptions, hret, hforever, hsd,
      validateNumberOption, JsNum.isNumber, JsNum.isFinite, h1, h0]
  · intro hq
    subst hq
    have hfac : validateNumberOption "factor" (some (JsNum.num 0)) 0 false
        = .ok () := by
      simp [validateNumberOption, JsNum.isNumber, JsNum.isFinite, JsNum.jsLt]
    refine ⟨buildOptions (coerceFactor (setDefaults
        { callerObj := raw, localObj := raw })).localObj
        (raw.maxRetryTime.getD .posInf), ?_, ?_⟩
    · simp only [normalizeOptions, hret, hforever, Bool.false_eq_true,
        if_false, ite_false]
      rw [hsd, hfac, hsdm, hmt, hsdx, hxt, hsdr, hrt]
    · simp [buildOptions, coerceFactor, hsd, jsGtZero, JsNum.toQ]

/-- C5 (witness for the amended theorem): at `factor = 0` all hypotheses
hold concretely, so normalization succeeds — it is not rejected — and the
resulting policy has `factor = 1`. -/
theorem normalizeOptions_factor_coercion_witness :
    ((0 : ℚ) < 0 → (normalizeOptions rawZeroFactor).2 =
        .error (.typeError "Expected `factor` to be ≥ 0.")) ∧
    ((0 : ℚ) = 0 → ∃ o, (normalizeOptions rawZeroFactor).2 = .ok o ∧
        o.factor = 1) :=
  normalizeOptions_factor_coercion rawZeroFactor 0 rfl rfl rfl rfl rfl rfl

/-- Any nonnegative retry budget makes the loop condition
`attemptNumber < retries + 1` true at `attemptNumber = 0`. -/
theorem zero_lt_retries_add_one {r : WithTop ℚ} (h : 0 ≤ r) :
    (0 : WithTop ℚ) < r + 1 := by
  have h1 : (0 : WithTop ℚ) + 1 ≤ r + 1 := add_le_add_right h 1
  rw [zero_add] at h1
  have h0 : (0 : WithTop ℚ) < 1 := by norm_num
  exact lt_of_lt_of_le h0 h1

/-- C9: `pRetry` never mutates the caller-supplied options object. The
embedding makes the two object identities of the prologue explicit: the
caller's object and the local object created by the shallow copy
`options = {...options}`; every defaulting write and the factor coercion
target the local object, so after the prologue the caller's slot of the
heap still holds exactly the record that was passed in. -/
theorem setDefaults_callerObj (h : OptionsHeap) :
    (setDefaults h).callerObj = h.callerObj := rfl

theorem coerceFactor_callerObj (h : OptionsHeap) :
    (coerceFactor h).callerObj = h.callerObj := by
  unfold coerceFactor
  split <;> rfl

theorem normalizeOptions_preserves_caller (caller : RawOptions) :
    (normalizeOptions caller).1.callerObj = caller := by
  simp only [normalizeOptions]
  repeat' split
  all_goals simp [coerceFactor_callerObj, setDefaults_callerObj]

/-- C7: whenever the operation fails with an `AbortError`, the loop
terminates at once: the run rejects with the wrapped `originalError` (not
the wrapper), and the trace of that iteration is just the operation
invocation — no `onFailedAttempt`, no `shouldRetry`, no awaited delay, no
further attempt. -/
theorem abortError_rejects_with_cause {α : Type}
    (input : ℕ → Except JsValue α) (o : Options) (env : RunEnv)
    (fuel k : ℕ) (msg : String) (orig : JsError)
    (hsig : o.signal = none)
    (hcond : ((k : ℕ) : WithTop ℚ) < o.retries + 1)
    (hin : input (k + 1) = .error (.err (.abortError msg orig))) :
    pRetryLoop input o env (fuel + 1) k
      = (.thrown (.err orig), [.attempt (k + 1)]) := by
  simp [pRetryLoop, hcond, attemptBody, throwIfAbortedV, hsig, hin,
    onAttemptFailure, wrapIfNonError]

/-- C7 (witness): a concrete run whose first attempt throws
`new AbortError(new Error('cause'))` rejects with the cause after one
attempt. -/
theorem abortError_rejects_with_cause_witness :
    pRetryLoop inputAbort zeroMinTimeoutOptions trivialEnv 3 0
      = (.thrown (.err (.plain "cause")), [.attempt 1]) :=
  abortError_rejects_with_cause inputAbort zeroMinTimeoutOptions trivialEnv
    2 0 "cause" (.plain "cause") rfl
    (by norm_num [zeroMinTimeoutOptions]) rfl

/-- C6: a run whose operation throws a `TypeError` whose message is not a
recognized network-error message terminates after exactly one attempt,
rejecting with that same error; the trace contains no `onFailedAttempt` and
no `shouldRetry` event. -/
theorem nonNetwork_typeError_terminal {α : Type}
    (input : ℕ → Except JsValue α) (o : Options) (env : RunEnv)
    (fuel : ℕ) (m : String)
    (hsig : o.signal = none)
    (hret : (0 : WithTop ℚ) ≤ o.retries)
    (hin : input 1 = .error (.err (.typeError m)))
    (hm : m ∉ networkErrorMessages) :
    runRetry input o env (fuel + 1)
      = (.thrown (.err (.typeError m)), [.attempt 1]) := by
  have hcond := zero_lt_retries_add_one hret
  simp [runRetry, throwIfAbortedV, hsig, pRetryLoop, hcond, attemptBody,
    hin, onAttemptFailure, wrapIfNonError, isTypeErrorB, isNetworkError, hm]

/-- C6 (witness): a concrete run throwing `TypeError('boom')` rejects after
one attempt with no callback invocations. -/
theorem nonNetwork_typeError_terminal_witness :
    runRetry inputTypeError zeroMinTimeoutOptions trivialEnv 3
      = (.thrown (.err (.typeError "boom")), [.attempt 1]) :=
  nonNetwork_typeError_terminal inputTypeError zeroMinTimeoutOptions
    trivialEnv 2 "boom" rfl (by norm_num [zeroMinTimeoutOptions]) rfl
    (by simp [networkErrorMessages])

/-- C2 (counterexample): a run whose operation throws the non-error value
`'foo'` rejects with the wrapping `TypeError` (so the raw value indeed never
propagates), but — contrary to the claim — the wrapped error is *not*
treated as a retryable failure: the run terminates immediately after one
attempt and `onFailedAttempt` is never invoked. -/
theorem wrapped_nonError_not_retryable_cex :
    runRetry inputNonError zeroMinTimeoutOptions trivialEnv 3
      = (.thrown (.err (.typeError (nonErrorWrapMessage "foo"))),
         [.attempt 1]) ∧
    Event.onFailedAttemptCall 1 ∉
      (runRetry inputNonError zeroMinTimeoutOptions trivialEnv 3).2 := by
  have h : runRetry inputNonError zeroMinTimeoutOptions trivialEnv 3
      = (.thrown (.err (.typeError (nonErrorWrapMessage "foo"))),
         [.attempt 1]) := by
    show runRetry inputNonError zeroMinTimeoutOptions trivialEnv (2 + 1) = _
    simp [runRetry, throwIfAbortedV, zeroMinTimeoutOptions, pRetryLoop,
      attemptBody, inputNonError, onAttemptFailure, wrapIfNonError,
      isTypeErrorB, isNetworkError, networkErrorMessages,
      nonErrorWrapMessage]
    norm_num
  refine ⟨h, ?_⟩
  rw [h]
  simp

/-- C2 (amended): a thrown non-error value is wrapped into a `TypeError`
whose message carries the stringified original value, and the wrapped error
— not the raw value — is what the run rejects with; but since the wrapper is
a non-network `TypeError`, it is terminal: the loop stops at that attempt
and neither `onFailedAttempt` nor `shouldRetry` nor any delay occurs for
that failure. -/
theorem wrapped_nonError_terminal {α : Type}
    (input : ℕ → Except JsValue α) (o : Options) (env : RunEnv)
    (fuel k : ℕ) (s : String)
    (hsig : o.signal = none)
    (hcond : ((k : ℕ) : WithTop ℚ) < o.retries + 1)
    (hin : input (k + 1) = .error (.nonError s))
    (hm : nonErrorWrapMessage s ∉ networkErrorMessages) :
    pRetryLoop input o env (fuel + 1) k
      = (.thrown (.err (.typeError (nonErrorWrapMessage s))),
         [.attempt (k + 1)]) := by
  simp [pRetryLoop, hcond, attemptBody, throwIfAbortedV, hsig, hin,
    onAttemptFailure, wrapIfNonError, isTypeErrorB, isNetworkError, hm]

/-- C2 (witness for the amended theorem): the concrete thrown value `'foo'`
at the first attempt. -/
theorem wrapped_nonError_terminal_witness :
    pRetryLoop inputNonError zeroMinTimeoutOptions trivialEnv 3 0
      = (.thrown (.err (.typeError (nonErrorWrapMessage "foo"))),
         [.attempt 1]) :=
  wrapped_nonError_terminal inputNonError zeroMinTimeoutOptions trivialEnv
    2 0 "foo" rfl
    (by norm_num [zeroMinTimeoutOptions]) rfl
    (by simp [networkErrorMessages, nonErrorWrapMessage])

/-- When a plain retryable error is handled with no deadline, permissive
callbacks and attempts remaining, `onAttemptFailure` decides to retry, and
its event block contains no attempt event and exactly one
`onFailedAttempt` event. -/
theorem onAttemptFailure_plain_retry {o : Options} (env : RunEnv)
    (m : String) (a : ℕ)
    (hmrt : o.maxRetryTime = ⊤) (hsig : o.signal = none)
    (hofa : ∀ c, o.onFailedAttempt c = .ok ())
    (hsr : ∀ c, o.shouldRetry c = .ok true)
    (hlt : ((a : ℕ) : WithTop ℚ) < o.retries + 1) :
    (onAttemptFailure (.err (.plain m)) a o env).1 = .ok () ∧
    List.countP isAttemptEv (onAttemptFailure (.err (.plain m)) a o env).2
      = 0 ∧
    List.countP isOnFAEv (onAttemptFailure (.err (.plain m)) a o env).2
      = 1 := by
  have hnge : ¬ ((((a : ℕ) : ℚ) : WithTop ℚ) ≥ o.retries + 1) := by
    rw [not_le]
    exact_mod_cast hlt
  have hc1 : ¬ ((((env.now a - env.startTime : ℚ) : WithTop ℚ) ≥ ⊤)
      ∨ ((((a : ℕ) : ℚ) : WithTop ℚ) ≥ o.retries + 1)) := by
    rintro (h | h)
    · exact absurd (top_le_iff.mp h) (WithTop.coe_ne_top)
    · exact hnge h
  have hc3 : ¬ ((⊤ : WithTop ℚ) ≤ 0) := by simp
  simp only [onAttemptFailure, wrapIfNonError, isTypeErrorB, isNetworkError,
    Bool.false_and, Bool.not_false, hofa, hmrt, hsig, hsr, throwIfAbortedV,
    WithTop.map_top]
  rw [if_neg hc1, if_pos trivial, if_neg hc3]
  refine ⟨rfl, ?_, ?_⟩ <;>
    · split <;> simp_all [isAttemptEv, isOnFAEv]

/-- When a plain retryable error is handled on the final allowed attempt
(`attemptNumber ≥ retries + 1`), `onAttemptFailure` rejects the run with
that same error right after the single `onFailedAttempt` call. -/
theorem onAttemptFailure_plain_exhausted {o : Options} (env : RunEnv)
    (m : String) (a : ℕ)
    (hmrt : o.maxRetryTime = ⊤)
    (hofa : ∀ c, o.onFailedAttempt c = .ok ())
    (hge : o.retries + 1 ≤ ((a : ℕ) : WithTop ℚ)) :
    onAttemptFailure (.err (.plain m)) a o env
      = (.error (.err (.plain m)), [.onFailedAttemptCall a]) := by
  have hge2 : ((((a : ℕ) : ℚ) : WithTop ℚ) ≥ o.retries + 1) := by
    exact_mod_cast hge
  simp only [onAttemptFailure, wrapIfNonError, isTypeErrorB, isNetworkError,
    Bool.false_and, Bool.not_false, hofa]
  rw [if_pos (Or.inr hge2)]
  simp

/-- Loop invariant behind C3: starting the attempt loop at counter `k ≤ n`
against an always-failing operation performs exactly `n + 1 - k` further
attempts and as many `onFailedAttempt` calls, then rejects with the error of
the last attempt. -/
theorem pRetryLoop_always_fail {α : Type} (input : ℕ → Except JsValue α)
    (o : Options) (env : RunEnv) (n : ℕ) (ms : ℕ → String)
    (hret : o.retries = (((n : ℕ) : ℚ) : WithTop ℚ))
    (hmrt : o.maxRetryTime = ⊤) (hsig : o.signal = none)
    (hofa : ∀ c, o.onFailedAttempt c = .ok ())
    (hsr : ∀ c, o.shouldRetry c = .ok true)
    (hin : ∀ j, input (j + 1) = .error (.err (.plain (ms j)))) :
    ∀ fuel k, k ≤ n → n + 1 - k ≤ fuel →
      (pRetryLoop input o env fuel k).1 = .thrown (.err (.plain (ms n))) ∧
      List.countP isAttemptEv (pRetryLoop input o env fuel k).2 = n + 1 - k ∧
      List.countP isOnFAEv (pRetryLoop input o env fuel k).2 = n + 1 - k := by
  intro fuel
  induction fuel with
  | zero => intro k hk hf; omega
  | succ fuel ih =>
    intro k hk hf
    have hcond : (((k : ℕ) : ℚ) : WithTop ℚ) < o.retries + 1 := by
      rw [hret]
      exact_mod_cast Nat.lt_succ_of_le hk
    have hbody : attemptBody input o.signal (k + 1)
        = (.error (.err (.plain (ms k))), [.attempt (k + 1)]) := by
      simp [attemptBody, throwIfAbortedV, hsig, hin k]
    rcases Nat.lt_or_ge k n with hlt | hge
    · -- retries remain: the handler decides to retry and we recurse
      have hlt2 : (((k + 1 : ℕ)) : WithTop ℚ) < o.retries + 1 := by
        rw [hret]
        have : ((k + 1 : ℕ) : ℚ) < ((n : ℕ) : ℚ) + 1 := by
          exact_mod_cast Nat.succ_lt_succ hlt
        exact_mod_cast this
      obtain ⟨hres, hca, hcf⟩ :=
        onAttemptFailure_plain_retry (o := o) env (ms k) (k + 1)
          hmrt hsig hofa hsr hlt2
      obtain ⟨ihres, ihca, ihcf⟩ := ih (k + 1) hlt (by omega)
      simp only [pRetryLoop]
      rw [if_pos hcond]
      rcases hoa : onAttemptFailure (.err (.plain (ms k))) (k + 1) o env
        with ⟨res, evs⟩
      rw [hoa] at hres hca hcf
      simp only at hres hca hcf
      subst hres
      simp only [hbody, hoa]
      refine ⟨ihres, ?_, ?_⟩
      · simp [List.countP_append, List.countP_cons, hca, ihca, isAttemptEv]
        omega
      · simp [List.countP_append, List.countP_cons, hcf, ihcf, isOnFAEv]
        omega
    · -- last allowed attempt: the handler rejects with this error
      have hkn : k = n := le_antisymm hk hge
      subst hkn
      have hge2 : o.retries + 1 ≤ (((k + 1 : ℕ)) : WithTop ℚ) := by
        rw [hret]
        have : ((k : ℕ) : ℚ) + 1 ≤ ((k + 1 : ℕ) : ℚ) := by push_cast; ring_nf; rfl
        exact_mod_cast this
      have hoa := onAttemptFailure_plain_exhausted (o := o) env (ms k) (k + 1)
        hmrt hofa hge2
      simp only [pRetryLoop]
      rw [if_pos hcond]
      simp only [hbody, hoa]
      refine ⟨by simp, ?_, ?_⟩ <;> simp [isAttemptEv, isOnFAEv]

/-- C3: with finite `retries = n` (any `n ≥ 0`), an operation failing on
every attempt with a plain retryable error, `shouldRetry` always true and no
deadline or cancellation, the run performs exactly `n + 1` operation
invocations and exactly `n + 1` `onFailedAttempt` calls and then rejects
with the error of the last attempt. -/
theorem always_fail_attempt_count {α : Type} (input : ℕ → Except JsValue α)
    (o : Options) (env : RunEnv) (n fuel : ℕ) (ms : ℕ → String)
    (hret : o.retries = (((n : ℕ) : ℚ) : WithTop ℚ))
    (hmrt : o.maxRetryTime = ⊤) (hsig : o.signal = none)
    (hofa : ∀ c, o.onFailedAttempt c = .ok ())
    (hsr : ∀ c, o.shouldRetry c = .ok true)
    (hin : ∀ j, input (j + 1) = .error (.err (.plain (ms j))))
    (hfuel : n + 1 ≤ fuel) :
    (runRetry input o env fuel).1 = .thrown (.err (.plain (ms n))) ∧
    List.countP isAttemptEv (runRetry input o env fuel).2 = n + 1 ∧
    List.countP isOnFAEv (runRetry input o env fuel).2 = n + 1 := by
  have h := pRetryLoop_always_fail input o env n ms hret hmrt hsig hofa hsr
    hin fuel 0 (Nat.zero_le n) (by omega)
  simpa [runRetry, throwIfAbortedV, hsig] using h

/-- C3 (witness): `retries = 1` with an operation that always throws
`Error('always')`: two attempts, two `onFailedAttempt` calls, rejection
with that error. -/
theorem always_fail_attempt_count_witness :
    (runRetry inputAlwaysFail retriesOneOptions trivialEnv 4).1
      = .thrown (.err (.plain "always")) ∧
    List.countP isAttemptEv
      (runRetry inputAlwaysFail retriesOneOptions trivialEnv 4).2 = 1 + 1 ∧
    List.countP isOnFAEv
      (runRetry inputAlwaysFail retriesOneOptions trivialEnv 4).2 = 1 + 1 :=
  always_fail_attempt_count inputAlwaysFail retriesOneOptions trivialEnv 1 4
    (fun _ => "always") rfl rfl rfl (fun _ => rfl) (fun _ => rfl)
    (fun _ => rfl) (by omega)

/-- On an attempt with no retries left (`attemptNumber ≥ retries + 1`),
`onAttemptFailure` never decides to retry: every branch rejects. This is
what makes the post-loop fallback `throw` unreachable. -/
theorem onAttemptFailure_exhausted_not_ok (e : JsValue) (a : ℕ)
    (o : Options) (env : RunEnv)
    (hge : (((a : ℕ) : ℚ) : WithTop ℚ) ≥ o.retries + 1) :
    (onAttemptFailure e a o env).1 ≠ .ok () := by
  simp only [onAttemptFailure]
  repeat' split
  all_goals simp_all [not_or]

/-- If `validateRetries` accepts the supplied value, the defaulted retry
budget is nonnegative. -/
theorem validated_retries_nonneg (r : Option JsNum)
    (h : validateRetries r = .ok ()) :
    0 ≤ (r.getD (.num 10)).toWithTop := by
  cases r with
  | none =>
    show (0 : WithTop ℚ) ≤ ((10 : ℚ) : WithTop ℚ)
    norm_num
  | some v =>
    cases v with
    | num q =>
      simp only [validateRetries, JsNum.isNumber, JsNum.jsLt] at h
      simp only [if_true] at h
      by_cases hq : q < 0
      · simp [hq] at h
      · push_neg at hq
        simp [JsNum.toWithTop]
        exact_mod_cast hq
    | posInf => simp [JsNum.toWithTop]
    | negInf => simp [validateRetries, JsNum.isNumber, JsNum.jsLt] at h
    | nan => simp [validateRetries, JsNum.isNumber, JsNum.jsLt] at h
    | notNumber => simp [validateRetries, JsNum.isNumber] at h

/-- The only way option normalization succeeds: `retries` validated, no
`forever` property, and the result built from the defaulted, validated,
factor-coerced local object. -/
theorem normalizeOptions_ok_shape (caller : RawOptions) (o : Options)
    (hok : (normalizeOptions caller).2 = .ok o) :
    validateRetries caller.retries = .ok () ∧
    o = buildOptions (coerceFactor (setDefaults
        { callerObj := caller, localObj := caller })).localObj
      ((setDefaults { callerObj := caller, localObj := caller
        }).localObj.maxRetryTime.getD .posInf) := by
  simp only [normalizeOptions] at hok
  rcases hvr : validateRetries caller.retries with e | u
  · rw [hvr] at hok; simp at hok
  · rw [hvr] at hok
    rcases hfv : caller.hasForever with _ | _
    · rw [hfv] at hok
      simp only [Bool.false_eq_true, if_false, ite_false] at hok
      rcases h1 : validateNumberOption "factor" (setDefaults
          { callerObj := caller, localObj := caller }).localObj.factor 0 false
        with e | u
      · rw [h1] at hok; simp at hok
      · rw [h1] at hok
        rcases h2 : validateNumberOption "minTimeout" (setDefaults
            { callerObj := caller, localObj := caller }).localObj.minTimeout
            0 false with e | u
        · rw [h2] at hok; simp at hok
        · rw [h2] at hok
          rcases h3 : validateNumberOption "maxTimeout" (setDefaults
              { callerObj := caller, localObj := caller }).localObj.maxTimeout
              0 true with e | u
          · rw [h3] at hok; simp at hok
          · rw [h3] at hok
            rcases h4 : validateNumberOption "maxRetryTime" (some ((setDefaults
                { callerObj := caller, localObj := caller
                }).localObj.maxRetryTime.getD .posInf)) 0 true with e | u
            · rw [h4] at hok; simp at hok
            · rw [h4] at hok
              exact ⟨rfl, (Except.ok.inj hok).symm⟩
    · rw [hfv] at hok; simp at hok

/-- A successfully normalized policy always has a nonnegative retry
budget. -/
theorem normalizeOptions_retries_nonneg (caller : RawOptions) (o : Options)
    (hok : (normalizeOptions caller).2 = .ok o) :
    0 ≤ o.retries := by
  obtain ⟨hvr, ho⟩ := normalizeOptions_ok_shape caller o hok
  subst ho
  have hfac : (coerceFactor (setDefaults
      { callerObj := caller, localObj := caller })).localObj.retries
      = some (caller.retries.getD (.num 10)) := by
    unfold coerceFactor
    split <;> simp [setDefaults]
  simp only [buildOptions, hfac, Option.getD_some]
  exact validated_retries_nonneg caller.retries hvr

/-- Loop invariant behind C10: whenever the loop is entered with
`attemptNumber < retries + 1` (which holds initially and is re-established
by every retry decision), its outcome is never the post-loop fallback
error. -/
theorem pRetryLoop_no_fallback {α : Type} (input : ℕ → Except JsValue α)
    (o : Options) (env : RunEnv) :
    ∀ fuel k, (((k : ℕ) : ℚ) : WithTop ℚ) < o.retries + 1 →
      (pRetryLoop input o env fuel k).1 ≠ .exhaustedFallback := by
  intro fuel
  induction fuel with
  | zero => intro k _; simp [pRetryLoop]
  | succ fuel ih =>
    intro k hk
    simp only [pRetryLoop]
    rw [if_pos hk]
    rcases hb : attemptBody input o.signal (k + 1) with ⟨rb, evb⟩
    cases rb with
    | ok v => simp [hb]
    | error e =>
      rcases hoa : onAttemptFailure e (k + 1) o env with ⟨ro, evo⟩
      cases ro with
      | error v => simp [hb, hoa]
      | ok u =>
        have hnext : (((k + 1 : ℕ) : ℚ) : WithTop ℚ) < o.retries + 1 := by
          rcases lt_or_ge ((((k + 1 : ℕ) : ℚ) : WithTop ℚ)) (o.retries + 1)
            with hlt | hge
          · exact hlt
          · exfalso
            have := onAttemptFailure_exhausted_not_ok e (k + 1) o env hge
            rw [hoa] at this
            exact this rfl
        simp only [hb, hoa]
        simpa using ih (k + 1) hnext

/-- C10: for every run, the fallback error thrown after the attempt loop
(`'Retry attempts exhausted without throwing an error.'`, line 191) is
unreachable: the loop can only be left by a return or a throw from within
an iteration, because the failure handler already rejects whenever
`attemptNumber ≥ retries + 1`. -/
theorem pRetry_never_fallback {α : Type} (input : ℕ → Except JsValue α)
    (caller : RawOptions) (env : RunEnv) (fuel : ℕ) :
    (pRetry input caller env fuel).1 ≠ .exhaustedFallback := by
  unfold pRetry
  rcases hn : (normalizeOptions caller).2 with e | o
  · simp
  · have h0 : 0 ≤ o.retries := normalizeOptions_retries_nonneg caller o hn
    unfold runRetry
    rcases hs : o.signal with _ | r
    · simp only [throwIfAbortedV, hs]
      have hcond : (((0 : ℕ) : ℚ) : WithTop ℚ) < o.retries + 1 := by
        have := zero_lt_retries_add_one h0
        exact_mod_cast this
      exact pRetryLoop_no_fallback input o env fuel 0 hcond
    · simp [throwIfAbortedV, hs]

/-- Scanning a concatenation is scanning the first part and, when it
succeeds, continuing with the resulting seen-set. -/
theorem seenScan_append (l₁ l₂ : List Event) :
    ∀ seen, seenScan seen (l₁ ++ l₂)
      = (seenScan seen l₁).bind (fun s => seenScan s l₂) := by
  induction l₁ with
  | nil => intro seen; simp [seenScan]
  | cons e rest ih =>
    intro seen
    cases e with
    | attempt n => simpa [seenScan] using ih seen
    | onFailedAttemptCall n => simpa [seenScan] using ih (n :: seen)
    | shouldRetryCall n =>
      by_cases hmem : n ∈ seen
      · simpa [seenScan, hmem] using ih seen
      · simp [seenScan, hmem]
    | delayWait n d => simpa [seenScan] using ih seen

/-- The event block of a single `onAttemptFailure` call always scans
successfully: it either has no callback events, or starts with the
`onFailedAttempt` call that any `shouldRetry` event of the same block
follows. -/
theorem onAttemptFailure_scan (e : JsValue) (a : ℕ) (o : Options)
    (env : RunEnv) (seen : List ℕ) :
    ∃ s2, seenScan seen (onAttemptFailure e a o env).2 = some s2 := by
  simp only [onAttemptFailure]
  repeat' split
  all_goals simp [seenScan]

/-- The event block of `attemptBody` contains no callback events, so it
scans successfully without changing the seen-set. -/
theorem attemptBody_scan {α : Type} (input : ℕ → Except JsValue α)
    (signal : Option JsValue) (a : ℕ) (seen : List ℕ) :
    seenScan seen (attemptBody input signal a).2 = some seen := by
  simp only [attemptBody]
  repeat' split
  all_goals simp [seenScan]

/-- Loop invariant behind C8: the whole trace of the attempt loop scans
successfully from any starting seen-set. -/
theorem pRetryLoop_scan {α : Type} (input : ℕ → Except JsValue α)
    (o : Options) (env : RunEnv) :
    ∀ fuel k seen, ∃ s2,
      seenScan seen (pRetryLoop input o env fuel k).2 = some s2 := by
  intro fuel
  induction fuel with
  | zero => intro k seen; exact ⟨seen, rfl⟩
  | succ fuel ih =>
    intro k seen
    simp only [pRetryLoop]
    split
    · rcases hb : attemptBody input o.signal (k + 1) with ⟨rb, evb⟩
      have hscanb : seenScan seen evb = some seen := by
        have := attemptBody_scan input o.signal (k + 1) seen
        rw [hb] at this
        exact this
      cases rb with
      | ok v => exact ⟨seen, hscanb⟩
      | error e =>
        rcases hoa : onAttemptFailure e (k + 1) o env with ⟨ro, evo⟩
        obtain ⟨s2, hscano⟩ : ∃ s2, seenScan seen evo = some s2 := by
          obtain ⟨s2, h⟩ := onAttemptFailure_scan e (k + 1) o env seen
          rw [hoa] at h
          exact ⟨s2, h⟩
        cases ro with
        | error v =>
          refine ⟨s2, ?_⟩
          simp [hoa, seenScan_append, hscanb, hscano]
        | ok u =>
          obtain ⟨s3, hscanr⟩ := ih (k + 1) s2
          refine ⟨s3, ?_⟩
          simp [hoa, seenScan_append, hscanb, hscano, hscanr]
    · exact ⟨seen, rfl⟩

/-- C8: in every run, for every failure, `shouldRetry` is consulted only
after the `onFailedAttempt` call for that same failure has completed: every
`shouldRetry` event in the trace is preceded by an earlier `onFailedAttempt`
event with the same attempt number. -/
theorem shouldRetry_after_onFailedAttempt {α : Type}
    (input : ℕ → Except JsValue α) (caller : RawOptions) (env : RunEnv)
    (fuel : ℕ) :
    onFailedBeforeShouldRetry (pRetry input caller env fuel).2 = true := by
  unfold pRetry
  rcases hn : (normalizeOptions caller).2 with e | o
  · simp [onFailedBeforeShouldRetry, seenScan]
  · unfold runRetry
    rcases hs : o.signal with _ | r
    · simp only [throwIfAbortedV, hs]
      obtain ⟨s2, h⟩ := pRetryLoop_scan input o env fuel 0 []
      simp [onFailedBeforeShouldRetry, h]
    · simp [throwIfAbortedV, hs, onFailedBeforeShouldRetry, seenScan]

/-- C1 (spec-modelled): in the skip-aware loop described by the spec, a
failure for which `shouldSkip` returns true leaves retries-left unchanged,
consumes no retry-budget slot, leaves the backoff attempt-index used for
delay growth unchanged — and yet the attempt number still advances by one
and `onFailedAttempt` is still invoked for that failure. -/
theorem shouldSkip_preserves_budget (shouldSkip : JsError → Bool)
    (s : SkipRunState) (e : JsError) (retries : WithTop ℚ)
    (hskip : shouldSkip e = true) :
    (specSkipFailStep shouldSkip s e).1.attemptNumber
      = s.attemptNumber + 1 ∧
    specSkipRetriesLeft retries (specSkipFailStep shouldSkip s e).1
      = specSkipRetriesLeft retries s ∧
    (specSkipFailStep shouldSkip s e).1.retriesConsumed
      = s.retriesConsumed ∧
    specSkipEffectiveAttempt (specSkipFailStep shouldSkip s e).1
      = specSkipEffectiveAttempt s ∧
    Event.onFailedAttemptCall s.attemptNumber
      ∈ (specSkipFailStep shouldSkip s e).2 := by
  refine ⟨rfl, ?_, ?_, ?_, ?_⟩
  · simp [specSkipRetriesLeft, specSkipFailStep, hskip]
  · simp [specSkipFailStep, hskip]
  · simp [specSkipEffectiveAttempt, specSkipFailStep, hskip,
      Nat.succ_sub_succ]
  · simp [specSkipFailStep]

/-- C1 (witness): the test fixture predicate `error.message === 'skip'` on
an `Error('skip')` at attempt 3 with one retry consumed and one skipped so
far, against a budget of one retry. -/
theorem shouldSkip_preserves_budget_witness :
    (specSkipFailStep skipOnSkipMessage ⟨3, 1, 1⟩ (.plain "skip")
        ).1.attemptNumber = 3 + 1 ∧
    specSkipRetriesLeft ((1 : ℚ) : WithTop ℚ)
        (specSkipFailStep skipOnSkipMessage ⟨3, 1, 1⟩ (.plain "skip")).1
      = specSkipRetriesLeft ((1 : ℚ) : WithTop ℚ) ⟨3, 1, 1⟩ ∧
    (specSkipFailStep skipOnSkipMessage ⟨3, 1, 1⟩ (.plain "skip")
        ).1.retriesConsumed = 1 ∧
    specSkipEffectiveAttempt
        (specSkipFailStep skipOnSkipMessage ⟨3, 1, 1⟩ (.plain "skip")).1
      = specSkipEffectiveAttempt ⟨3, 1, 1⟩ ∧
    Event.onFailedAttemptCall 3
      ∈ (specSkipFailStep skipOnSkipMessage ⟨3, 1, 1⟩ (.plain "skip")).2 :=
  shouldSkip_preserves_budget skipOnSkipMessage ⟨3, 1, 1⟩ (.plain "skip")
    ((1 : ℚ) : WithTop ℚ) rfl

end PRetry
